import Mathlib

/-!
Verification of the OT change-validation engine.

This file gives a shallow embedding, in Lean 4, of the correlation and
validation engine of the `OT_Validator` repository:

* `engine/correlator.py` — `CorrelationEngine` (candidate retrieval,
  four-factor weighted scoring, best-match selection, validation-record
  creation) together with the parts of Python's `difflib.SequenceMatcher`
  that `_asset_similarity` relies on;
* `engine/validator.py` — `ValidationProcessor.process_exception`
  (the validation waterfall), `_extract_chg_numbers`, and
  `_correlate_with_direct_lookup`;
* `database/db.py` — the shape of the engine's write path (each store
  method runs in its own connection/commit, modelled as one committed
  write operation per call).

Modelling conventions:

* Python strings are `List Char` (`PyStr`); the empty string is the only
  falsy string.
* Python timestamps (`datetime`) are rationals counting hours; a value of
  `none : Option ℚ` models an absent or unparsable timestamp (the
  `parse_dt` helper of the source returns `None` in exactly those cases).
* Python floats are modelled as `ℚ`.
* Python `set` iteration order is implementation defined; where the source
  iterates a set to build a list we fix first-occurrence order, and we
  prove only order-robust properties about the result.
* Database access is passed in explicitly: read operations are function
  fields of `DBFuns`, and the engine's writes are emitted as a list of
  `WriteOp` values, each corresponding to one committed transaction of
  `db.py` (every `Database` method opens, commits and closes its own
  connection).
-/

set_option maxHeartbeats 1000000

namespace OTValidator

/-- A Python string, modelled as its list of characters. -/
abbrev PyStr := List Char

/-- Coerce a Lean string literal to the `PyStr` model. -/
def pstr (s : String) : PyStr := s.data

/-- Python `str.lower()` (the engine only ever lowercases ASCII data). -/
def strLower (s : PyStr) : PyStr := s.map Char.toLower

/-- Python `str.upper()`. -/
def strUpper (s : PyStr) : PyStr := s.map Char.toUpper

/-- Python `str.split()` with no argument: split on runs of whitespace,
dropping empty chunks.  `acc` is the current chunk, reversed. -/
def splitWsAux : PyStr → PyStr → List PyStr
  | [], acc => if acc = [] then [] else [acc.reverse]
  | c :: rest, acc =>
    if c.isWhitespace then
      (if acc = [] then [] else [acc.reverse]) ++ splitWsAux rest []
    else splitWsAux rest (c :: acc)

/-- Python `str.split()` with no argument. -/
def pySplit (s : PyStr) : List PyStr := splitWsAux s []

/-- One character of `a` (at `i`) equals one character of `b` (at `j`);
`false` when either index is out of range (the source never indexes out of
range on the paths modelled here). -/
def chEq (a b : PyStr) (i j : Nat) : Bool :=
  match a.get? i, b.get? j with
  | some x, some y => x == y
  | _, _ => false

/-! ### Regular-expression scanners

The source uses three fixed patterns, always with `re.IGNORECASE`:

* `CHG\d{10}` (whole match kept) — `_extract_chg_numbers`;
* `KB\d{6,7}` (whole match kept) — `process_exception` step 2;
* `KB[- ]?(\d{6,7})` (digit group kept) — `_kb_match` and
  `WSUSAutoValidator`.

`re.findall` scans left to right, emitting non-overlapping matches and
resuming after each match; on failure at a position it advances one
character.  `scanFind` implements that loop; the fuel argument (always
called with the length of the string) bounds the recursion and is never
exhausted because every step consumes at least one character. -/

/-- Generic `re.findall` loop for a head matcher `f` that, on success,
returns the emitted token and the rest of the input after the match. -/
def scanFind (f : PyStr → Option (PyStr × PyStr)) : Nat → PyStr → List PyStr
  | 0, _ => []
  | _ + 1, [] => []
  | fuel + 1, c :: rest =>
    match f (c :: rest) with
    | some (tok, rest2) => tok :: scanFind f fuel rest2
    | none => scanFind f fuel rest

/-- Take exactly `n` leading digits, returning them and the rest. -/
def takeDigits : Nat → PyStr → Option (PyStr × PyStr)
  | 0, s => some ([], s)
  | _ + 1, [] => none
  | n + 1, c :: rest =>
    if c.isDigit then
      match takeDigits n rest with
      | some (ds, rest2) => some (c :: ds, rest2)
      | none => none
    else none

/-- Head matcher for `CHG\d{10}` (case-insensitive), emitting the whole
match. -/
def chgMatchHead (s : PyStr) : Option (PyStr × PyStr) :=
  match s with
  | c0 :: c1 :: c2 :: rest =>
    if c0.toLower = 'c' ∧ c1.toLower = 'h' ∧ c2.toLower = 'g' then
      match takeDigits 10 rest with
      | some (ds, rest2) => some (c0 :: c1 :: c2 :: ds, rest2)
      | none => none
    else none
  | _ => none

/-- Greedy `\d{6,7}`: seven digits if seven are available, else six, else
no match.  Returns the digit group and the rest of the input. -/
def takeDigits67 (s : PyStr) : Option (PyStr × PyStr) :=
  match takeDigits 7 s with
  | some r => some r
  | none => takeDigits 6 s

/-- Head matcher for `KB\d{6,7}` (case-insensitive), emitting the whole
match. -/
def kbPlainHead (s : PyStr) : Option (PyStr × PyStr) :=
  match s with
  | c0 :: c1 :: rest =>
    if c0.toLower = 'k' ∧ c1.toLower = 'b' then
      match takeDigits67 rest with
      | some (ds, rest2) => some (c0 :: c1 :: ds, rest2)
      | none => none
    else none
  | _ => none

/-- Head matcher for `KB[- ]?(\d{6,7})` (case-insensitive), emitting the
digit group.  The optional separator cannot be re-used as a digit, so the
regex alternative without the separator never fires when a separator is
present. -/
def kbSepHead (s : PyStr) : Option (PyStr × PyStr) :=
  match s with
  | c0 :: c1 :: rest =>
    if c0.toLower = 'k' ∧ c1.toLower = 'b' then
      let rest1 := match rest with
                   | c :: r2 => if c = '-' ∨ c = ' ' then r2 else rest
                   | [] => rest
      match takeDigits67 rest1 with
      | some (ds, rest2) => some (ds, rest2)
      | none => none
    else none
  | _ => none

/-- `re.findall(r'CHG\d{10}', s, re.IGNORECASE)`. -/
def chgFindall (s : PyStr) : List PyStr := scanFind chgMatchHead s.length s

/-- `re.findall(r'KB[- ]?(\d{6,7})', s, re.IGNORECASE)` (digit groups). -/
def kbDigitGroups (s : PyStr) : List PyStr := scanFind kbSepHead s.length s

/-- `re.search(r'KB\d{6,7}', s, re.IGNORECASE)`, whole match, as used on
the `patch_id` field in `process_exception` step 2 (the first match of the
findall scan is the search result). -/
def kbSearchPlain (s : PyStr) : Option PyStr :=
  (scanFind kbPlainHead s.length s).head?

/-- `ValidationProcessor._extract_chg_numbers` (engine/validator.py):
`re.findall(r'CHG\d{10}', comment, re.IGNORECASE)` followed by
`[m.upper() for m in set(matches)]`.  Note the order of operations in the
source: the set is built from the *raw* matches and `upper()` is applied
afterwards, so two case-variant spellings of the same ticket survive as
two list entries.  Python set iteration order is implementation defined;
it is modelled as first-occurrence order (`List.eraseDups`). -/
def extractChgNumbers (comment : PyStr) : List PyStr :=
  if comment = [] then []
  else (chgFindall comment).eraseDups.map strUpper

/-! ### difflib.SequenceMatcher

`_asset_similarity` calls `SequenceMatcher(None, a, b).ratio()` from the
Python standard library.  With `isjunk=None` (as in the source) the junk
set `bjunk` is empty, so the two junk-extension loops of
`find_longest_match` never run and are omitted; the `autojunk` heuristic
(default `True`) still applies: when `len(b) >= 200`, characters occurring
more than `len(b)//100 + 1` times in `b` are dropped from the index `b2j`
(they remain matchable by the extension loops, which consult only
`bjunk`).

`ratio()` is `2*M/T` where `T = len(a) + len(b)` (and `1.0` when `T = 0`)
and `M` is the total size of the matching blocks found by the recursive
`get_matching_blocks` partition; merging of adjacent blocks and the final
sort do not change the total size, so `M` is computed directly from the
recursion tree.

The `while` loops and the block recursion are written with an explicit
fuel argument so that they remain structural (and hence kernel
computable); the fuel bounds proved below (`extendBack_fuel`,
`extendFwd_fuel`, `matchTotal_fuel`) show the chosen fuel values are never
exhausted, i.e. the embedding agrees with the unbounded Python loops. -/

/-- All indices of character `c` in `b`, ascending (the `b2j` index before
autojunk filtering). -/
def b2jAll (b : PyStr) (c : Char) : List Nat :=
  (List.range b.length).filter (fun j => b.get? j == some c)

/-- The autojunk test of `SequenceMatcher.__chain_b`: with `n = len(b) ≥
200`, characters with more than `n // 100 + 1` occurrences are "popular"
and dropped from `b2j`. -/
def bPopular (b : PyStr) (c : Char) : Bool :=
  decide (200 ≤ b.length) && decide (b.length / 100 + 1 < (b2jAll b c).length)

/-- The `b2j` index actually used by `find_longest_match`. -/
def b2j (b : PyStr) (c : Char) : List Nat :=
  if bPopular b c then [] else b2jAll b c

/-- Lookup in the `j2len` dictionary (`j2len.get(j, 0)`), modelled as an
association list. -/
def j2get (l : List (Nat × Nat)) (j : Nat) : Nat :=
  match l.find? (fun p => p.1 == j) with
  | some p => p.2
  | none => 0

/-- A `(besti, bestj, bestsize)` triple of `find_longest_match`. -/
structure FLMatch where
  i : Nat
  j : Nat
  size : Nat
deriving DecidableEq

/-- Inner loop of `find_longest_match` for one row `i`: walk the (already
window-filtered, ascending) occurrence list of `a[i]` in `b`, building
`newj2len` and updating the running best.  `k = j2len.get(j-1, 0) + 1`;
Python's lookup of key `-1` (when `j = 0`) returns the default `0`. -/
def flmInner (prev : List (Nat × Nat)) (i : Nat) :
    List Nat → List (Nat × Nat) → FLMatch → List (Nat × Nat) × FLMatch
  | [], acc, best => (acc, best)
  | j :: js, acc, best =>
    let k := (if j = 0 then 0 else j2get prev (j - 1)) + 1
    let best2 := if best.size < k then ⟨i + 1 - k, j + 1 - k, k⟩ else best
    flmInner prev i js (acc ++ [(j, k)]) best2

/-- Outer loop of `find_longest_match` over `i ∈ range(alo, ahi)`.  The
`j < blo` `continue` and `j ≥ bhi` `break` are together a filter of the
ascending occurrence list to the window `[blo, bhi)`. -/
def flmOuter (a b : PyStr) (blo bhi : Nat) :
    List Nat → List (Nat × Nat) → FLMatch → FLMatch
  | [], _, best => best
  | i :: rest, j2len, best =>
    let js := (b2j b (a.getD i ' ')).filter
      (fun j => decide (blo ≤ j) && decide (j < bhi))
    let r := flmInner j2len i js [] best
    flmOuter a b blo bhi rest r.1 r.2

/-- The first extension loop of `find_longest_match`: extend the best
block backwards over equal characters (with `bjunk` empty the junk test is
vacuous).  Fuel is `m.i`, an upper bound on the number of iterations. -/
def extendBack (a b : PyStr) (alo blo : Nat) : Nat → FLMatch → FLMatch
  | 0, m => m
  | fuel + 1, m =>
    if alo < m.i ∧ blo < m.j ∧ chEq a b (m.i - 1) (m.j - 1) = true then
      extendBack a b alo blo fuel ⟨m.i - 1, m.j - 1, m.size + 1⟩
    else m

/-- The second extension loop: extend the best block forwards over equal
characters.  Fuel `ahi` bounds the number of iterations. -/
def extendFwd (a b : PyStr) (ahi bhi : Nat) : Nat → FLMatch → FLMatch
  | 0, m => m
  | fuel + 1, m =>
    if m.i + m.size < ahi ∧ m.j + m.size < bhi ∧
        chEq a b (m.i + m.size) (m.j + m.size) = true then
      extendFwd a b ahi bhi fuel ⟨m.i, m.j, m.size + 1⟩
    else m

/-- `SequenceMatcher.find_longest_match(alo, ahi, blo, bhi)` with
`isjunk=None`. -/
def findLongestMatch (a b : PyStr) (alo ahi blo bhi : Nat) : FLMatch :=
  let best := flmOuter a b blo bhi (List.range' alo (ahi - alo)) [] ⟨alo, blo, 0⟩
  let best2 := extendBack a b alo blo best.i best
  extendFwd a b ahi bhi (ahi - best2.i) best2

/-- Total size of the matching blocks produced by the recursive partition
of `get_matching_blocks` on the window `(alo, ahi, blo, bhi)` (the queue
order, the final sort and the merging of adjacent blocks do not affect the
total).  Fuel `ahi - alo + 1` is never exhausted (`matchTotal_fuel`). -/
def matchTotal (a b : PyStr) : Nat → Nat → Nat → Nat → Nat → Nat
  | 0, _, _, _, _ => 0
  | fuel + 1, alo, ahi, blo, bhi =>
    let m := findLongestMatch a b alo ahi blo bhi
    if m.size = 0 then 0
    else
      m.size
      + (if alo < m.i ∧ blo < m.j then matchTotal a b fuel alo m.i blo m.j else 0)
      + (if m.i + m.size < ahi ∧ m.j + m.size < bhi then
          matchTotal a b fuel (m.i + m.size) ahi (m.j + m.size) bhi else 0)

/-- `M`: the total matched size over the whole strings. -/
def seqMatcherTotal (a b : PyStr) : Nat :=
  matchTotal a b (a.length + 1) 0 a.length 0 b.length

/-- `SequenceMatcher(None, a, b).ratio()`: `2*M/T`, or `1.0` for two empty
strings (`difflib._calculate_ratio`). -/
def seqRatio (a b : PyStr) : ℚ :=
  if a.length + b.length = 0 then 1
  else 2 * (seqMatcherTotal a b : ℚ) / ((a.length : ℚ) + (b.length : ℚ))

/-! ### Window invariants of the matcher

`MInv` records that a best-match triple stays inside its window: this both
justifies the fuel values above and gives the `M ≤ min(len a, len b)`
bound needed for `ratio() ≤ 1`. -/

/-- The running best of `find_longest_match` stays in the window; while no
match has been recorded it is the initial `(alo, blo, 0)`. -/
def MInv (alo ahi blo bhi : Nat) (m : FLMatch) : Prop :=
  (m.size = 0 → m.i = alo ∧ m.j = blo) ∧ alo ≤ m.i ∧ blo ≤ m.j ∧
  (m.size ≠ 0 → m.i + m.size ≤ ahi ∧ m.j + m.size ≤ bhi)

theorem MInv_mk (alo ahi blo bhi x y z : Nat) :
    MInv alo ahi blo bhi ⟨x, y, z⟩ ↔
    ((z = 0 → x = alo ∧ y = blo) ∧ alo ≤ x ∧ blo ≤ y ∧
      (z ≠ 0 → x + z ≤ ahi ∧ y + z ≤ bhi)) := Iff.rfl

theorem j2get_le (l : List (Nat × Nat)) (j bound : Nat)
    (h : ∀ p ∈ l, p.1 = j → p.2 ≤ bound) : j2get l j ≤ bound := by
  unfold j2get
  cases hf : l.find? (fun p => p.1 == j) with
  | none => exact Nat.zero_le _
  | some p =>
    have hp := List.find?_some hf
    have hm := List.mem_of_find?_eq_some hf
    exact h p hm (by simpa using hp)

theorem flmInner_inv (alo ahi blo bhi i : Nat) (hi1 : alo ≤ i) (hi2 : i < ahi) :
    ∀ (js : List Nat) (prev acc : List (Nat × Nat)) (best : FLMatch),
    (∀ j ∈ js, blo ≤ j ∧ j < bhi) →
    (∀ p ∈ prev, p.2 + alo ≤ i ∧ p.2 + blo ≤ p.1 + 1) →
    (∀ p ∈ acc, p.2 + alo ≤ i + 1 ∧ p.2 + blo ≤ p.1 + 1) →
    MInv alo ahi blo bhi best →
    (∀ p ∈ (flmInner prev i js acc best).1, p.2 + alo ≤ i + 1 ∧ p.2 + blo ≤ p.1 + 1) ∧
    MInv alo ahi blo bhi (flmInner prev i js acc best).2 := by
  intro js
  induction js with
  | nil => intro prev acc best _ _ hacc hbest; exact ⟨hacc, hbest⟩
  | cons j js ih =>
    intro prev acc best hjs hprev hacc hbest
    have hj := hjs j (by simp)
    have hk1 : ((if j = 0 then 0 else j2get prev (j - 1)) + 1) + alo ≤ i + 1 := by
      split
      · omega
      · have : j2get prev (j - 1) ≤ i - alo :=
          j2get_le _ _ _ (fun p hp _ => by have := (hprev p hp).1; omega)
        omega
    have hk2 : ((if j = 0 then 0 else j2get prev (j - 1)) + 1) + blo ≤ j + 1 := by
      split
      · omega
      · have : j2get prev (j - 1) ≤ j - blo :=
          j2get_le _ _ _ (fun p hp hpj => by have := (hprev p hp).2; omega)
        omega
    simp only [flmInner]
    set k := (if j = 0 then 0 else j2get prev (j - 1)) + 1 with hkdef
    have hk0 : 1 ≤ k := hkdef ▸ Nat.succ_le_succ (Nat.zero_le _)
    refine ih prev _ _ (fun x hx => hjs x (by simp [hx])) hprev ?_ ?_
    · intro p hp
      rcases List.mem_append.1 hp with h | h
      · exact hacc p h
      · simp only [List.mem_singleton] at h
        subst h
        exact ⟨hk1, hk2⟩
    · by_cases hbk : best.size < k
      · rw [if_pos hbk, MInv_mk]
        omega
      · rw [if_neg hbk]
        exact hbest

theorem flmOuter_inv (a b : PyStr) (alo ahi blo bhi : Nat) :
    ∀ (n s : Nat) (j2len : List (Nat × Nat)) (best : FLMatch),
    alo ≤ s → s + n ≤ ahi →
    (∀ p ∈ j2len, p.2 + alo ≤ s ∧ p.2 + blo ≤ p.1 + 1) →
    MInv alo ahi blo bhi best →
    MInv alo ahi blo bhi (flmOuter a b blo bhi (List.range' s n) j2len best) := by
  intro n
  induction n with
  | zero => intro s j2len best _ _ _ hbest; simpa [flmOuter] using hbest
  | succ n ih =>
    intro s j2len best hs1 hs2 hj2 hbest
    rw [List.range'_succ]
    simp only [flmOuter]
    have hin := flmInner_inv alo ahi blo bhi s hs1 (by omega)
      ((b2j b (a.getD s ' ')).filter (fun j => decide (blo ≤ j) && decide (j < bhi)))
      j2len [] best
      (by intro x hx; simp only [List.mem_filter, Bool.and_eq_true, decide_eq_true_eq] at hx
          exact hx.2)
      (fun p hp => hj2 p hp)
      (by simp)
      hbest
    exact ih (s + 1) _ _ (by omega) (by omega)
      (fun p hp => by have := hin.1 p hp; omega) hin.2

theorem extendBack_inv (a b : PyStr) (alo ahi blo bhi : Nat) :
    ∀ (fuel : Nat) (m : FLMatch), MInv alo ahi blo bhi m →
    MInv alo ahi blo bhi (extendBack a b alo blo fuel m) := by
  intro fuel
  induction fuel with
  | zero => intro m hm; exact hm
  | succ fuel ih =>
    intro m hm
    simp only [extendBack]
    split
    · rename_i hguard
      obtain ⟨h1, h2, _⟩ := hguard
      rcases hm with ⟨hz, hi, hj, hnz⟩
      apply ih
      rw [MInv_mk]
      by_cases hs : m.size = 0
      · have := hz hs; omega
      · have := hnz hs; omega
    · exact hm

theorem extendFwd_inv (a b : PyStr) (alo ahi blo bhi : Nat) :
    ∀ (fuel : Nat) (m : FLMatch), MInv alo ahi blo bhi m →
    MInv alo ahi blo bhi (extendFwd a b ahi bhi fuel m) := by
  intro fuel
  induction fuel with
  | zero => intro m hm; exact hm
  | succ fuel ih =>
    intro m hm
    simp only [extendFwd]
    split
    · rename_i hguard
      obtain ⟨h1, h2, _⟩ := hguard
      rcases hm with ⟨hz, hi, hj, hnz⟩
      apply ih
      rw [MInv_mk]
      omega
    · exact hm

theorem findLongestMatch_inv (a b : PyStr) (alo ahi blo bhi : Nat) :
    MInv alo ahi blo bhi (findLongestMatch a b alo ahi blo bhi) := by
  unfold findLongestMatch
  apply extendFwd_inv
  apply extendBack_inv
  have hinit : MInv alo ahi blo bhi ⟨alo, blo, 0⟩ :=
    ⟨fun _ => ⟨rfl, rfl⟩, le_rfl, le_rfl, fun h => absurd rfl h⟩
  by_cases h : alo ≤ ahi
  · exact flmOuter_inv a b alo ahi blo bhi (ahi - alo) alo [] _ le_rfl (by omega)
      (by simp) hinit
  · have h0 : ahi - alo = 0 := by omega
    rw [h0]
    simpa [flmOuter] using hinit

theorem matchTotal_le (a b : PyStr) : ∀ (fuel alo ahi blo bhi : Nat),
    matchTotal a b fuel alo ahi blo bhi ≤ ahi - alo ∧
    matchTotal a b fuel alo ahi blo bhi ≤ bhi - blo := by
  intro fuel
  induction fuel with
  | zero => intro alo ahi blo bhi; simp [matchTotal]
  | succ fuel ih =>
    intro alo ahi blo bhi
    simp only [matchTotal]
    have hm := findLongestMatch_inv a b alo ahi blo bhi
    set m := findLongestMatch a b alo ahi blo bhi with hmdef
    rcases hm with ⟨hz, hi, hj, hnz⟩
    split
    · simp
    · rename_i hs
      have hb := hnz hs
      have ihL := ih alo m.i blo m.j
      have ihR := ih (m.i + m.size) ahi (m.j + m.size) bhi
      constructor <;> (split <;> split <;> omega)

theorem matchTotal_fuel (a b : PyStr) : ∀ (f g alo ahi blo bhi : Nat),
    ahi - alo < f → ahi - alo < g →
    matchTotal a b f alo ahi blo bhi = matchTotal a b g alo ahi blo bhi := by
  intro f
  induction f with
  | zero => intro g alo ahi blo bhi hf _; omega
  | succ f ih =>
    intro g alo ahi blo bhi hf hg
    match g, hg with
    | g + 1, hg =>
      simp only [matchTotal]
      have hm := findLongestMatch_inv a b alo ahi blo bhi
      set m := findLongestMatch a b alo ahi blo bhi with hmdef
      rcases hm with ⟨hz, hi, hj, hnz⟩
      split
      · rfl
      · rename_i hs
        have hb := hnz hs
        congr 1
        · congr 1
          split
          · rename_i hLR
            exact ih g alo m.i blo m.j (by omega) (by omega)
          · rfl
        · split
          · rename_i hLR
            exact ih g (m.i + m.size) ahi (m.j + m.size) bhi (by omega) (by omega)
          · rfl

theorem extendBack_fuel (a b : PyStr) (alo blo : Nat) :
    ∀ (f g : Nat) (m : FLMatch), m.i ≤ f → m.i ≤ g →
    extendBack a b alo blo f m = extendBack a b alo blo g m := by
  intro f
  induction f with
  | zero =>
    intro g m hf _
    have hz : m.i = 0 := by omega
    cases g with
    | zero => rfl
    | succ g =>
      simp only [extendBack]
      rw [if_neg]
      intro h
      omega
  | succ f ih =>
    intro g m hf hg
    cases g with
    | zero =>
      have hz : m.i = 0 := by omega
      simp only [extendBack]
      rw [if_neg]
      intro h
      omega
    | succ g =>
      simp only [extendBack]
      split
      · rename_i h
        exact ih g _ (by simp; omega) (by simp; omega)
      · rfl

theorem extendFwd_fuel (a b : PyStr) (ahi bhi : Nat) :
    ∀ (f g : Nat) (m : FLMatch), ahi - (m.i + m.size) ≤ f → ahi - (m.i + m.size) ≤ g →
    extendFwd a b ahi bhi f m = extendFwd a b ahi bhi g m := by
  intro f
  induction f with
  | zero =>
    intro g m hf _
    have hz : ahi ≤ m.i + m.size := by omega
    cases g with
    | zero => rfl
    | succ g =>
      simp only [extendFwd]
      rw [if_neg]
      intro h
      omega
  | succ f ih =>
    intro g m hf hg
    cases g with
    | zero =>
      have hz : ahi ≤ m.i + m.size := by omega
      simp only [extendFwd]
      rw [if_neg]
      intro h
      omega
    | succ g =>
      simp only [extendFwd]
      split
      · rename_i h
        exact ih g _ (by simp; omega) (by simp; omega)
      · rfl

theorem seqMatcherTotal_le (a b : PyStr) :
    seqMatcherTotal a b ≤ a.length ∧ seqMatcherTotal a b ≤ b.length := by
  have h := matchTotal_le a b (a.length + 1) 0 a.length 0 b.length
  simpa [seqMatcherTotal] using h

theorem seqRatio_nonneg (a b : PyStr) : 0 ≤ seqRatio a b := by
  unfold seqRatio
  split
  · norm_num
  · apply div_nonneg <;> positivity

theorem seqRatio_le_one (a b : PyStr) : seqRatio a b ≤ 1 := by
  unfold seqRatio
  split
  · norm_num
  · rename_i h
    have hpos : (0 : ℚ) < (a.length : ℚ) + b.length := by
      have : 0 < a.length + b.length := Nat.pos_of_ne_zero h
      exact_mod_cast this
    rw [div_le_one hpos]
    have h1 := (seqMatcherTotal_le a b).1
    have h2 := (seqMatcherTotal_le a b).2
    have : (seqMatcherTotal a b : ℚ) ≤ a.length := by exact_mod_cast h1
    have : (seqMatcherTotal a b : ℚ) ≤ b.length := by exact_mod_cast h2
    linarith

/-! ### Data model

The engine reads alerts and change records as loosely-typed dictionaries;
only the keys it actually consults are modelled.  Timestamps are `Option
ℚ` in hours: `parse_dt` of the source maps a `datetime` to itself and an
unparsable or missing value to `None`.  A change's `kb_articles` column
holds `json.dumps` of a list of strings; it is modelled as the decoded
list (an undecodable value decodes to the empty set in the source, i.e.
the same as `[]`). -/

/-- An alert dictionary, as consumed by `CorrelationEngine`. -/
structure Alert where
  asset_name : PyStr
  asset_name_normalized : PyStr
  change_category : PyStr
  change_detail : PyStr
  detected_at : Option ℚ
deriving DecidableEq

/-- A change dictionary: a row of the `changes` table, or a record
returned by the ServiceNow connector (which additionally carries the
execution `state`; rows of the `changes` table leave it empty). -/
structure Change where
  id : Nat
  ticket_id : PyStr
  asset_name_normalized : PyStr
  change_type : PyStr
  scheduled_start : Option ℚ
  scheduled_end : Option ℚ
  kb_articles : List PyStr
  approval_status : PyStr
  state : PyStr
deriving DecidableEq

/-- The four correlation factor scores (`factors` dictionary). -/
structure Factors where
  asset : ℚ
  time : ℚ
  type : ℚ
  kb : ℚ
deriving DecidableEq

/-- The read operations of the store that the engine consults
(`database/db.py`); each is passed in as a function. -/
structure DBFuns where
  getChangesInWindow : ℚ → ℚ → Option PyStr → List Change
  isKbApproved : PyStr → Bool

/-- `CorrelationEngine.AUTO_VALIDATE_THRESHOLD` (0.95). -/
def AUTO_VALIDATE_THRESHOLD : ℚ := 95 / 100

/-- `CorrelationEngine.MINIMUM_MATCH_THRESHOLD` (0.50). -/
def MINIMUM_MATCH_THRESHOLD : ℚ := 50 / 100

/-- `CorrelationEngine.TIME_BUFFER_HOURS` (24). -/
def TIME_BUFFER_HOURS : ℚ := 24

/-- `CorrelationEngine.CHANGE_TYPE_MAPPINGS` (`dict.get(key, [])`). -/
def CHANGE_TYPE_MAPPINGS (k : PyStr) : List PyStr :=
  if k = pstr "software" then [pstr "patch", pstr "software", pstr "install", pstr "update"]
  else if k = pstr "service" then [pstr "config", pstr "software", pstr "service"]
  else if k = pstr "user" then [pstr "user", pstr "access", pstr "account"]
  else if k = pstr "config" then [pstr "config", pstr "setting", pstr "parameter"]
  else if k = pstr "file" then [pstr "config", pstr "software", pstr "patch"]
  else if k = pstr "registry" then [pstr "config", pstr "software"]
  else if k = pstr "firewall" then [pstr "config", pstr "network", pstr "firewall"]
  else if k = pstr "patch" then [pstr "patch", pstr "update", pstr "hotfix"]
  else []

/-! ### Factor scores (`CorrelationEngine._calculate_score` helpers) -/

/-- The token set of an asset name:
`set(name.replace('-', ' ').replace('_', ' ').split())`. -/
def tokensOf (s : PyStr) : Finset PyStr :=
  (pySplit (s.map (fun c => if c = '-' ∨ c = '_' then ' ' else c))).toFinset

/-- `CorrelationEngine._asset_similarity`.  Python's `x in y` on strings
is the substring test. -/
def assetSimilarity (alertAsset changeAsset : PyStr) : ℚ :=
  if alertAsset = [] ∨ changeAsset = [] then 0
  else if alertAsset = changeAsset then 1
  else if alertAsset <:+: changeAsset ∨ changeAsset <:+: alertAsset then 9 / 10
  else
    let ratio := seqRatio alertAsset changeAsset
    let aT := tokensOf alertAsset
    let cT := tokensOf changeAsset
    if aT.Nonempty ∧ cT.Nonempty then
      max ratio ((((aT ∩ cT).card : ℚ)) / (((aT ∪ cT).card : ℚ)))
    else ratio

/-- `CorrelationEngine._time_score`.  The arguments are the already-parsed
timestamps (`parse_dt` returns `None` exactly for the absent/unparsable
cases modelled by `none`). -/
def timeScore (detectedAt scheduledStart scheduledEnd : Option ℚ) : ℚ :=
  match detectedAt, scheduledStart with
  | some detected, some start =>
    -- If no end time, assume a 24-hour window.
    let e := scheduledEnd.getD (start + 24)
    let windowStart := start - TIME_BUFFER_HOURS
    let windowEnd := e + TIME_BUFFER_HOURS
    if start ≤ detected ∧ detected ≤ e then 1
    else if windowStart ≤ detected ∧ detected ≤ windowEnd then
      let hoursOutside := if detected < start then start - detected else detected - e
      max 0 (1 - hoursOutside / TIME_BUFFER_HOURS * (1 / 2))
    else 0
  | _, _ => 0

/-- `CorrelationEngine._type_match`. -/
def typeMatch (alertCategory changeType : PyStr) : ℚ :=
  if alertCategory = [] ∨ changeType = [] then 1 / 2
  else
    let ac := strLower alertCategory
    let ct := strLower changeType
    if ac = ct then 1
    else if ct ∈ CHANGE_TYPE_MAPPINGS ac then 1
    else if ((pySplit ac).toFinset ∩ (pySplit ct).toFinset).Nonempty then 7 / 10
    else 3 / 10

/-- `re.sub(r'^KB[- ]?', '', kb)` — note: case-sensitive in the source. -/
def stripKbPref (kb : PyStr) : PyStr :=
  match kb with
  | 'K' :: 'B' :: rest =>
    (match rest with
     | c :: r2 => if c = '-' ∨ c = ' ' then r2 else rest
     | [] => [])
  | _ => kb

/-- `CorrelationEngine._kb_match`.  `kbArticles` is the decoded
`kb_articles` list of the change; `isKbApproved` is
`db.is_kb_approved`. -/
def kbMatch (alertDetail : PyStr) (kbArticles : List PyStr)
    (isKbApproved : PyStr → Bool) : ℚ :=
  if alertDetail = [] then 1 / 2
  else
    let alertKbs := (kbDigitGroups alertDetail).toFinset
    if alertKbs = ∅ then 1 / 2
    else
      let changeKbs := (kbArticles.map stripKbPref).toFinset
      if changeKbs = ∅ then
        -- Check whether any KB is in the WSUS approved list.
        if ∃ kb ∈ alertKbs, isKbApproved (pstr "KB" ++ kb) = true then 1 else 1 / 2
      else if (alertKbs ∩ changeKbs).Nonempty then 1 else 3 / 10

/-- The factor dictionary built by `CorrelationEngine._calculate_score`. -/
def scoreFactors (isKbApproved : PyStr → Bool) (alert : Alert) (change : Change) :
    Factors where
  asset := assetSimilarity alert.asset_name_normalized change.asset_name_normalized
  time := timeScore alert.detected_at change.scheduled_start change.scheduled_end
  type := typeMatch alert.change_category change.change_type
  kb := kbMatch alert.change_detail change.kb_articles isKbApproved

/-- The weighted total of `_calculate_score`:
`sum(factors[k] * WEIGHTS[k] for k in factors)` with weights 0.40 / 0.30 /
0.20 / 0.10. -/
def scoreTotal (isKbApproved : PyStr → Bool) (alert : Alert) (change : Change) : ℚ :=
  let f := scoreFactors isKbApproved alert change
  f.asset * (40 / 100) + f.time * (30 / 100) + f.type * (20 / 100) + f.kb * (10 / 100)

/-! ### Best-match selection (`CorrelationEngine.correlate`) -/

/-- A `CorrelationResult`. -/
structure CorrelationResult where
  change_id : Nat
  ticket_id : PyStr
  score : ℚ
  factors : Factors
  is_auto_validated : Bool
  validation_rule : Option PyStr
deriving DecidableEq

/-- `'+'.join(rules)`. -/
def joinPlus : List PyStr → PyStr
  | [] => []
  | [x] => x
  | x :: xs => x ++ '+' :: joinPlus xs

/-- `CorrelationEngine._get_validation_rule`. -/
def getValidationRule (score : ℚ) (f : Factors) (change : Change) : Option PyStr :=
  if score < AUTO_VALIDATE_THRESHOLD then none
  else
    let rules :=
      (if 95 / 100 ≤ f.asset then [pstr "exact_asset_match"] else []) ++
      (if 1 ≤ f.time then [pstr "within_change_window"] else []) ++
      (if 1 ≤ f.kb then [pstr "kb_article_match"] else []) ++
      (if change.approval_status = pstr "approved" then [pstr "ticket_approved"] else [])
    if rules = [] then some (pstr "high_confidence_match") else some (joinPlus rules)

/-- The `CorrelationResult` that `correlate` builds for a winning
candidate. -/
def resultOf (isKbApproved : PyStr → Bool) (alert : Alert) (change : Change) :
    CorrelationResult :=
  let score := scoreTotal isKbApproved alert change
  { change_id := change.id
    ticket_id := change.ticket_id
    score := score
    factors := scoreFactors isKbApproved alert change
    is_auto_validated := decide (AUTO_VALIDATE_THRESHOLD ≤ score)
    validation_rule :=
      getValidationRule score (scoreFactors isKbApproved alert change) change }

/-- `CorrelationEngine._get_candidate_changes`.  `now` models
`datetime.now()`, the fallback for an absent/unparsable `detected_at`. -/
def getCandidateChanges (db : DBFuns) (now : ℚ) (alert : Alert) : List Change :=
  let detected := alert.detected_at.getD now
  let searchStart := detected - TIME_BUFFER_HOURS * 2
  let searchEnd := detected + TIME_BUFFER_HOURS
  let assetName := alert.asset_name_normalized
  db.getChangesInWindow searchStart searchEnd
    (if assetName = [] then none else some (assetName.take 3))

/-- One iteration of the `for change in candidates` loop of `correlate`:
the running pair is `(best_match, best_score)` and a candidate replaces it
only when `score > best_score and score >= MINIMUM_MATCH_THRESHOLD`. -/
def corrStep (isKbApproved : PyStr → Bool) (alert : Alert)
    (acc : Option CorrelationResult × ℚ) (change : Change) :
    Option CorrelationResult × ℚ :=
  let score := scoreTotal isKbApproved alert change
  if acc.2 < score ∧ MINIMUM_MATCH_THRESHOLD ≤ score then
    (some (resultOf isKbApproved alert change), score)
  else acc

/-- `CorrelationEngine.correlate`: best match above threshold, else
`None` (the early return for an empty candidate list coincides with the
fold over the empty list). -/
def correlate (db : DBFuns) (now : ℚ) (alert : Alert) : Option CorrelationResult :=
  let candidates := getCandidateChanges db now alert
  (candidates.foldl (corrStep db.isKbApproved alert) (none, 0)).1

/-! ### The write path (`correlate_and_validate` and `db.py`)

Every method of `database/db.py` opens its own SQLite connection and
commits on exit, so each engine-issued store call is one committed
transaction.  The engine's writes are therefore modelled as a list of
`WriteOp` values; a partial failure executes only a prefix of them. -/

/-- A row of the `validations` table, as filled in by the engine. -/
structure ValidationRec where
  alert_id : Nat
  change_id : Option Nat
  correlation_score : ℚ
  validation_status : PyStr
  validated_by : Option PyStr
  validated_at : Option ℚ
  auto_validation_rule : Option PyStr
  notes : Option PyStr
deriving DecidableEq

/-- One committed store write. -/
inductive WriteOp where
  | createValidation (v : ValidationRec)
  | updateAlertStatus (alertId : Nat) (status : PyStr) (actor : PyStr)

/-- The dictionary returned by `correlate_and_validate`. -/
structure CorrelateSummary where
  matched : Bool
  ticket_id : Option PyStr
  score : ℚ
  auto_validated : Bool
deriving DecidableEq

/-- `CorrelationEngine.correlate_and_validate`: correlate, create one
validation row, and update the alert status when auto-validated.  Returns
the summary dictionary and the emitted writes, in program order. -/
def correlateAndValidate (db : DBFuns) (now : ℚ) (alertId : Nat) (alert : Alert) :
    CorrelateSummary × List WriteOp :=
  match correlate db now alert with
  | some result =>
    let validation : ValidationRec :=
      { alert_id := alertId
        change_id := some result.change_id
        correlation_score := result.score
        validation_status :=
          if result.is_auto_validated then pstr "auto_validated" else pstr "pending_review"
        validated_by := if result.is_auto_validated then some (pstr "SYSTEM") else none
        validated_at := if result.is_auto_validated then some now else none
        auto_validation_rule := result.validation_rule
        notes := none }
    ({ matched := true
       ticket_id := some result.ticket_id
       score := result.score
       auto_validated := result.is_auto_validated },
     WriteOp.createValidation validation ::
       (if result.is_auto_validated then
          [WriteOp.updateAlertStatus alertId (pstr "validated") (pstr "SYSTEM")]
        else []))
  | none =>
    let validation : ValidationRec :=
      { alert_id := alertId
        change_id := none
        correlation_score := 0
        validation_status := pstr "pending_review"
        validated_by := none
        validated_at := none
        auto_validation_rule := none
        notes := some (pstr "No matching change ticket found") }
    ({ matched := false, ticket_id := none, score := 0, auto_validated := false },
     [WriteOp.createValidation validation])

/-- The store state touched by the engine's write path. -/
structure DBState where
  validations : List ValidationRec
  alertStatus : List (Nat × PyStr)
deriving DecidableEq

/-- Apply one committed write. -/
def applyOp (st : DBState) : WriteOp → DBState
  | .createValidation v => { st with validations := st.validations ++ [v] }
  | .updateAlertStatus aid status _ =>
    { st with alertStatus := st.alertStatus ++ [(aid, status)] }

/-- Apply a sequence of committed writes in order. -/
def applyOps (st : DBState) (ops : List WriteOp) : DBState := ops.foldl applyOp st

/-- The current validation status of an alert: the latest status update,
or `'pending'` (the column default set by `insert_alert`). -/
def statusOf (st : DBState) (aid : Nat) : PyStr :=
  match (st.alertStatus.filter (fun p => p.1 == aid)).getLast? with
  | some p => p.2
  | none => pstr "pending"

/-! ### Validation Processor (`engine/validator.py`)

`ValidationProcessor.process_exception` runs the waterfall on one
Industrial Defender exception dictionary.  The ServiceNow connector is
`Option`-valued (`self.snow`); its `lookup_multiple_chg` is a function
from a list of CHG numbers to change records.  Free-text notes are
modelled by their fixed prefixes (the interpolated f-string payloads are
logging detail). -/

/-- An ID exception dictionary (the keys `process_exception` reads). -/
structure IDExceptionRec where
  exception_type : PyStr
  comment : PyStr
  asset_group : PyStr
  detected_at : Option ℚ
  kb_numbers : List PyStr
  patch_id : PyStr
deriving DecidableEq

/-- The result dictionary built by `process_exception`. -/
structure ProcessResult where
  exception_type : PyStr
  detected_at : Option ℚ
  asset_group : PyStr
  correlation_method : Option PyStr
  is_validated : Bool
  confidence : ℚ
  matched_tickets : List PyStr
  notes : List PyStr
deriving DecidableEq

/-- The filter of `_correlate_with_direct_lookup`: approved and
closed/successful (`'closed' in c.get('state', '').lower()`). -/
def approvedClosed (c : Change) : Bool :=
  c.approval_status == pstr "approved" && decide (pstr "closed" <:+: strLower c.state)

/-- `ValidationProcessor._correlate_with_direct_lookup`: look the CHG
numbers up in ServiceNow and keep the approved, closed changes.  The
source returns a dictionary with `is_validated=True`, `confidence=1.0`
and `rule='direct_chg_lookup'` around the matched changes, or `None`; a
connector exception is caught and also yields `None` (the lookup is
modelled as a total function, so that branch is not represented). -/
def correlateWithDirectLookup (lookup : List PyStr → List Change)
    (chgNumbers : List PyStr) : Option (List Change) :=
  if chgNumbers = [] then none
  else
    let changes := lookup chgNumbers
    let approvedChanges := changes.filter approvedClosed
    if approvedChanges = [] then none else some approvedChanges

/-- `ValidationProcessor.process_exception`: the validation waterfall.
Step 1 is the direct CHG lookup (when CHG numbers were extracted and a
ServiceNow connector is configured); step 2 is the WSUS KB check for
`patches_installed` exceptions; step 3 of the source is a comment only
(`# Step 3: Try asset + time window correlation` — "This requires
additional context about which asset the exception is for") and performs
no work; step 4 is the manual-review fallback. -/
def processException (isKbApproved : PyStr → Bool)
    (snow : Option (List PyStr → List Change)) (exc : IDExceptionRec) :
    ProcessResult :=
  let chgNumbers := extractChgNumbers exc.comment
  let base : ProcessResult :=
    { exception_type := exc.exception_type
      detected_at := exc.detected_at
      asset_group := exc.asset_group
      correlation_method := none
      is_validated := false
      confidence := 0
      matched_tickets := []
      notes := if chgNumbers ≠ [] then [pstr "CHG numbers found"] else [] }
  -- Step 1: direct CHG lookup (PRIMARY PATH)
  let step1 : Option ProcessResult :=
    match snow with
    | some lookup =>
      if chgNumbers ≠ [] then
        match correlateWithDirectLookup lookup chgNumbers with
        | some _ =>
          some { base with
                  correlation_method := some (pstr "direct_chg_lookup")
                  is_validated := true
                  confidence := 1
                  matched_tickets := chgNumbers
                  notes := base.notes ++ [pstr "Auto-validated via direct CHG lookup"] }
        | none => none
      else none
    | none => none
  match step1 with
  | some r => r
  | none =>
    -- Step 2: WSUS KB match (for patches)
    let step2 : Option ProcessResult :=
      if exc.exception_type = pstr "patches_installed" then
        let kbNumbers := exc.kb_numbers ++
          (if exc.patch_id ≠ [] then ((kbSearchPlain exc.patch_id).map strUpper).toList
           else [])
        match kbNumbers.find? isKbApproved with
        | some kb =>
          some { base with
                  correlation_method := some (pstr "wsus_approved")
                  is_validated := true
                  confidence := 1
                  matched_tickets := [kb]
                  notes := base.notes ++ [pstr "Auto-validated: KB in WSUS approved list"] }
        | none => none
      else none
    match step2 with
    | some r => r
    | none =>
      -- Step 4: no correlation found — flag for manual review
      { base with
          correlation_method := some (pstr "none")
          is_validated := false
          confidence := 0
          notes := base.notes ++
            [pstr "No matching change ticket found - manual review required"] }

/-- The alert dictionary that `BatchProcessor.process_csv_import` builds
from an exception record (the alert the generic path would correlate). -/
def csvAlertOf (exc : IDExceptionRec) : Alert where
  asset_name := exc.asset_group
  asset_name_normalized := strLower exc.asset_group
  change_category := exc.exception_type
  change_detail := exc.comment
  detected_at := exc.detected_at

/-! ### Factor bounds -/

theorem assetSimilarity_mem (a c : PyStr) :
    0 ≤ assetSimilarity a c ∧ assetSimilarity a c ≤ 1 := by
  unfold assetSimilarity
  split
  · norm_num
  · split
    · norm_num
    · split
      · norm_num
      · dsimp only
        split
        · rename_i hne
          constructor
          · exact le_max_of_le_left (seqRatio_nonneg a c)
          · apply max_le (seqRatio_le_one a c)
            have hsub : tokensOf a ∩ tokensOf c ⊆ tokensOf a ∪ tokensOf c :=
              Finset.inter_subset_left.trans Finset.subset_union_left
            have hcard : (tokensOf a ∩ tokensOf c).card ≤ (tokensOf a ∪ tokensOf c).card :=
              Finset.card_le_card hsub
            have hpos : 0 < (tokensOf a ∪ tokensOf c).card :=
              Finset.card_pos.2 (hne.1.mono Finset.subset_union_left)
            rw [div_le_one (by exact_mod_cast hpos)]
            exact_mod_cast hcard
        · exact ⟨seqRatio_nonneg a c, seqRatio_le_one a c⟩

theorem timeScore_mem (d s e : Option ℚ) :
    0 ≤ timeScore d s e ∧ timeScore d s e ≤ 1 := by
  unfold timeScore
  match d, s with
  | none, none => norm_num
  | none, some _ => norm_num
  | some _, none => norm_num
  | some d, some s =>
    dsimp only
    simp only [TIME_BUFFER_HOURS]
    split
    · norm_num
    · rename_i hcore
      split
      · rename_i hzone
        push_neg at hcore
        have hout : (0 : ℚ) ≤ if d < s then s - d else d - Option.getD e (s + 24) := by
          by_cases hd : d < s
          · rw [if_pos hd]; linarith
          · rw [if_neg hd]
            push_neg at hd
            have := hcore hd
            linarith
        constructor
        · exact le_max_left _ _
        · refine max_le (by norm_num) ?_
          set h := (if d < s then s - d else d - Option.getD e (s + 24)) with hh
          linarith
      · norm_num

theorem typeMatch_mem (a c : PyStr) : 0 ≤ typeMatch a c ∧ typeMatch a c ≤ 1 := by
  unfold typeMatch
  split
  · norm_num
  · dsimp only
    split
    · norm_num
    · split
      · norm_num
      · split <;> norm_num

theorem kbMatch_mem (d : PyStr) (kbs : List PyStr) (f : PyStr → Bool) :
    0 ≤ kbMatch d kbs f ∧ kbMatch d kbs f ≤ 1 := by
  unfold kbMatch
  split
  · norm_num
  · dsimp only
    split
    · norm_num
    · split
      · split <;> norm_num
      · split <;> norm_num

/-! ### Characterization of the `correlate` selection loop -/

/-- Invariant of the `for change in candidates` loop: either nothing ever
qualified (and every processed candidate scored below the minimum
threshold), or the accumulator holds the first processed candidate that
attained the running maximum, that maximum being at least the threshold,
every earlier candidate scoring strictly below it, and every processed
candidate scoring at most it. -/
def CorrInv (kbA : PyStr → Bool) (alert : Alert)
    (acc : Option CorrelationResult × ℚ) (processed : List Change) : Prop :=
  (acc = (none, 0) ∧ ∀ c ∈ processed,
      scoreTotal kbA alert c < MINIMUM_MATCH_THRESHOLD) ∨
  (∃ pre c post, processed = pre ++ c :: post ∧
      acc = (some (resultOf kbA alert c), scoreTotal kbA alert c) ∧
      MINIMUM_MATCH_THRESHOLD ≤ scoreTotal kbA alert c ∧
      (∀ x ∈ pre, scoreTotal kbA alert x < scoreTotal kbA alert c) ∧
      (∀ x ∈ processed, scoreTotal kbA alert x ≤ scoreTotal kbA alert c))

theorem corrFold_inv (kbA : PyStr → Bool) (alert : Alert) :
    ∀ (l processed : List Change) (acc : Option CorrelationResult × ℚ),
    CorrInv kbA alert acc processed →
    CorrInv kbA alert (l.foldl (corrStep kbA alert) acc) (processed ++ l) := by
  intro l
  induction l with
  | nil => intro processed acc h; simpa using h
  | cons c l ih =>
    intro processed acc h
    have hstep : CorrInv kbA alert (corrStep kbA alert acc c) (processed ++ [c]) := by
      unfold corrStep
      dsimp only
      rcases h with ⟨hacc, hlt⟩ | ⟨pre, c0, post, hproc, hacc, hmin, hpre, hall⟩
      · subst hacc
        split
        · rename_i hcond
          right
          refine ⟨processed, c, [], rfl, rfl, hcond.2, ?_, ?_⟩
          · intro x hx
            exact lt_of_lt_of_le (hlt x hx) hcond.2
          · intro x hx
            rcases List.mem_append.1 hx with hx | hx
            · exact le_of_lt (lt_of_lt_of_le (hlt x hx) hcond.2)
            · simp only [List.mem_singleton] at hx; subst hx; exact le_rfl
        · rename_i hcond
          left
          refine ⟨rfl, ?_⟩
          intro x hx
          rcases List.mem_append.1 hx with hx | hx
          · exact hlt x hx
          · simp only [List.mem_singleton] at hx
            subst hx
            by_contra hge
            push_neg at hge
            have h2 : (0 : ℚ) < scoreTotal kbA alert x := by
              have : (0 : ℚ) < MINIMUM_MATCH_THRESHOLD := by
                norm_num [MINIMUM_MATCH_THRESHOLD]
              linarith
            exact hcond ⟨h2, hge⟩
      · subst hacc
        split
        · rename_i hcond
          right
          refine ⟨processed, c, [], rfl, rfl, hcond.2, ?_, ?_⟩
          · intro x hx
            exact lt_of_le_of_lt (hall x hx) hcond.1
          · intro x hx
            rcases List.mem_append.1 hx with hx | hx
            · exact le_of_lt (lt_of_le_of_lt (hall x hx) hcond.1)
            · simp only [List.mem_singleton] at hx; subst hx; exact le_rfl
        · rename_i hcond
          right
          refine ⟨pre, c0, post ++ [c], by rw [hproc]; simp, rfl, hmin, hpre, ?_⟩
          intro x hx
          rcases List.mem_append.1 hx with hx | hx
          · exact hall x hx
          · simp only [List.mem_singleton] at hx
            subst hx
            by_contra hgt
            push_neg at hgt
            exact hcond ⟨hgt, le_trans hmin (le_of_lt hgt)⟩
    have := ih (processed ++ [c]) _ hstep
    simpa using this

/-- `correlate` unfolded through the invariant: either no candidate
reached the minimum threshold and there is no match, or the match is the
first candidate attaining the maximum qualifying score. -/
theorem correlate_spec (db : DBFuns) (now : ℚ) (alert : Alert) :
    (correlate db now alert = none ∧
      ∀ c ∈ getCandidateChanges db now alert,
        scoreTotal db.isKbApproved alert c < MINIMUM_MATCH_THRESHOLD) ∨
    (∃ pre c post, getCandidateChanges db now alert = pre ++ c :: post ∧
      correlate db now alert = some (resultOf db.isKbApproved alert c) ∧
      MINIMUM_MATCH_THRESHOLD ≤ scoreTotal db.isKbApproved alert c ∧
      (∀ x ∈ pre, scoreTotal db.isKbApproved alert x <
        scoreTotal db.isKbApproved alert c) ∧
      (∀ x ∈ getCandidateChanges db now alert,
        scoreTotal db.isKbApproved alert x ≤ scoreTotal db.isKbApproved alert c)) := by
  have h := corrFold_inv db.isKbApproved alert (getCandidateChanges db now alert) [] (none, 0)
    (Or.inl ⟨rfl, by simp⟩)
  simp only [List.nil_append] at h
  rcases h with ⟨hacc, hlt⟩ | ⟨pre, c, post, hproc, hacc, hmin, hpre, hall⟩
  · left
    exact ⟨by simp [correlate, hacc], hlt⟩
  · right
    exact ⟨pre, c, post, hproc, by simp [correlate, hacc], hmin, hpre, hall⟩

/-! ### Concrete fixtures

Shared concrete inputs used by the end-to-end and boundary theorems
below.  `kbFalse` is a store with an empty WSUS approved list;
`lookupDirect` is a ServiceNow connector returning the single approved,
closed change `chgDirect`. -/

/-- A WSUS lookup that approves nothing. -/
def kbFalse : PyStr → Bool := fun _ => false

/-- An exception with no extractable identifiers (scenario-3 shape). -/
def excNoIds : IDExceptionRec where
  exception_type := pstr "software"
  comment := pstr "routine maintenance"
  asset_group := pstr "SCADA1"
  detected_at := some 100
  kb_numbers := []
  patch_id := []

/-- The alert `process_csv_import` would build from `excNoIds`. -/
def alertA : Alert where
  asset_name := pstr "SCADA1"
  asset_name_normalized := pstr "scada1"
  change_category := pstr "software"
  change_detail := pstr "routine maintenance"
  detected_at := some 100

/-- An approved change matching `alertA` on asset, window and type, with
no KB articles: factors (1, 1, 1, 0.5), total 0.95. -/
def changeA : Change where
  id := 1
  ticket_id := pstr "CHG0000000001"
  asset_name_normalized := pstr "scada1"
  change_type := pstr "software"
  scheduled_start := some 90
  scheduled_end := some 110
  kb_articles := []
  approval_status := pstr "approved"
  state := []

/-- A store whose candidate window contains exactly `changeA`. -/
def dbA : DBFuns where
  getChangesInWindow := fun _ _ _ => [changeA]
  isKbApproved := kbFalse

/-- An alert whose best candidate scores exactly 0.94. -/
def alertB : Alert where
  asset_name := pstr "scada1"
  asset_name_normalized := pstr "scada1"
  change_category := pstr "weird update"
  change_detail := pstr "KB5062070 installed"
  detected_at := some 100

/-- A candidate for `alertB`: exact asset (1.0), inside the window (1.0),
shared-word type match (0.7), matching KB article (1.0): total 0.94. -/
def changeB : Change where
  id := 2
  ticket_id := pstr "CHG0000000002"
  asset_name_normalized := pstr "scada1"
  change_type := pstr "special update"
  scheduled_start := some 90
  scheduled_end := some 110
  kb_articles := [pstr "KB5062070"]
  approval_status := pstr "approved"
  state := []

/-- A store whose candidate window contains exactly `changeB`. -/
def dbB : DBFuns where
  getChangesInWindow := fun _ _ _ => [changeB]
  isKbApproved := kbFalse

/-- The scenario-1 exception: a comment referencing one CHG ticket. -/
def excDirect : IDExceptionRec where
  exception_type := pstr "patches_installed"
  comment := pstr "Activity: CHG0000338290"
  asset_group := pstr "All_Windows"
  detected_at := some 100
  kb_numbers := []
  patch_id := []

/-- The approved, closed-successful change for `excDirect`. -/
def chgDirect : Change where
  id := 5
  ticket_id := pstr "CHG0000338290"
  asset_name_normalized := []
  change_type := []
  scheduled_start := none
  scheduled_end := none
  kb_articles := []
  approval_status := pstr "approved"
  state := pstr "Closed Successful"

/-- A ServiceNow lookup returning `chgDirect`. -/
def lookupDirect : List PyStr → List Change := fun _ => [chgDirect]

/-! ### Concrete factor and score evaluations -/

theorem ev_assetA : assetSimilarity (pstr "scada1") (pstr "scada1") = 1 := by
  unfold assetSimilarity
  rw [if_neg (by decide), if_pos (by decide)]

theorem ev_timeA : timeScore (some 100) (some 90) (some 110) = 1 := by
  unfold timeScore
  dsimp only [Option.getD]
  rw [if_pos (by norm_num)]

theorem ev_typeA : typeMatch (pstr "software") (pstr "software") = 1 := by
  unfold typeMatch
  rw [if_neg (by decide)]
  dsimp only
  rw [if_pos (by decide)]

theorem ev_kbA : kbMatch (pstr "routine maintenance") [] kbFalse = 1 / 2 := by
  unfold kbMatch
  rw [if_neg (by decide)]
  dsimp only
  rw [if_pos (by decide)]

theorem ev_scoreA : scoreTotal kbFalse alertA changeA = 19 / 20 := by
  unfold scoreTotal scoreFactors
  dsimp only [alertA, changeA]
  rw [ev_assetA, ev_timeA, ev_typeA, ev_kbA]
  norm_num

theorem ev_typeB : typeMatch (pstr "weird update") (pstr "special update") = 7 / 10 := by
  unfold typeMatch
  rw [if_neg (by decide)]
  dsimp only
  rw [if_neg (by decide), if_neg (by decide), if_pos (by decide)]

theorem ev_kbB : kbMatch (pstr "KB5062070 installed") [pstr "KB5062070"] kbFalse = 1 := by
  unfold kbMatch
  rw [if_neg (by decide)]
  dsimp only
  rw [if_neg (by decide), if_neg (by decide), if_pos (by decide)]

theorem ev_scoreB : scoreTotal kbFalse alertB changeB = 47 / 50 := by
  unfold scoreTotal scoreFactors
  dsimp only [alertB, changeB]
  rw [ev_assetA, ev_timeA, ev_typeB, ev_kbB]
  norm_num

theorem ev_correlateA : correlate dbA 0 alertA = some (resultOf kbFalse alertA changeA) := by
  unfold correlate getCandidateChanges
  dsimp only [dbA]
  rw [List.foldl_cons, List.foldl_nil]
  unfold corrStep
  dsimp only
  rw [ev_scoreA, if_pos (by norm_num [MINIMUM_MATCH_THRESHOLD])]

theorem ev_resultA_auto : (resultOf kbFalse alertA changeA).is_auto_validated = true := by
  unfold resultOf
  dsimp only
  rw [ev_scoreA]
  simp only [decide_eq_true_eq]
  norm_num [AUTO_VALIDATE_THRESHOLD]

theorem ev_resultA_score : (resultOf kbFalse alertA changeA).score = 19 / 20 := by
  unfold resultOf
  dsimp only
  exact ev_scoreA

theorem ev_correlateB : correlate dbB 0 alertB = some (resultOf kbFalse alertB changeB) := by
  unfold correlate getCandidateChanges
  dsimp only [dbB]
  rw [List.foldl_cons, List.foldl_nil]
  unfold corrStep
  dsimp only
  rw [ev_scoreB, if_pos (by norm_num [MINIMUM_MATCH_THRESHOLD])]

theorem ev_resultB_auto : (resultOf kbFalse alertB changeB).is_auto_validated = false := by
  unfold resultOf
  dsimp only
  rw [ev_scoreB]
  simp only [decide_eq_false_iff_not]
  norm_num [AUTO_VALIDATE_THRESHOLD]

theorem ev_resultB_score : (resultOf kbFalse alertB changeB).score = 47 / 50 := by
  unfold resultOf
  dsimp only
  exact ev_scoreB

/-! ### Helpers for the claim statements -/

/-- The distance of a detection time `d` outside the window `[s, e]`
(zero inside the window). -/
def timeDist (s e d : ℚ) : ℚ :=
  if d < s then s - d else if e < d then d - e else 0

theorem timeDist_nonneg (s e d : ℚ) : 0 ≤ timeDist s e d := by
  unfold timeDist
  split_ifs <;> linarith

/-- For a well-formed window (`s ≤ e`): zero distance means the detection
time is inside the window, and the score is 1. -/
theorem timeScore_of_dist_zero (d s : ℚ) (eo : Option ℚ)
    (_hwf : s ≤ eo.getD (s + 24)) (h : timeDist s (eo.getD (s + 24)) d = 0) :
    timeScore (some d) (some s) eo = 1 := by
  unfold timeDist at h
  split_ifs at h with h1 h2
  · linarith
  · linarith
  · push_neg at h1 h2
    unfold timeScore
    dsimp only
    rw [if_pos ⟨h1, h2⟩]

/-- For a well-formed window: inside the buffer zone the score is the
linear decay. -/
theorem timeScore_of_dist_buffer (d s : ℚ) (eo : Option ℚ)
    (hwf : s ≤ eo.getD (s + 24))
    (h0 : 0 < timeDist s (eo.getD (s + 24)) d)
    (h24 : timeDist s (eo.getD (s + 24)) d ≤ 24) :
    timeScore (some d) (some s) eo =
      1 - timeDist s (eo.getD (s + 24)) d / 24 * (1 / 2) := by
  unfold timeScore
  dsimp only
  simp only [TIME_BUFFER_HOURS]
  unfold timeDist at *
  split_ifs at h0 h24 with h1 h2
  · -- d < s: strictly before the window
    rw [if_neg (by intro hc; linarith [hc.1]), if_pos ⟨by linarith, by linarith⟩,
      if_pos h1]
    rw [max_eq_right (by linarith), if_pos h1]
  · -- e < d: strictly after the window
    rw [if_neg (by intro hc; linarith [hc.2]), if_pos ⟨by linarith, by linarith⟩,
      if_neg h1]
    rw [max_eq_right (by linarith), if_neg h1, if_pos h2]
  · linarith

/-- For a well-formed window: beyond the buffer the score is 0. -/
theorem timeScore_of_dist_beyond (d s : ℚ) (eo : Option ℚ)
    (_hwf : s ≤ eo.getD (s + 24))
    (h : 24 < timeDist s (eo.getD (s + 24)) d) :
    timeScore (some d) (some s) eo = 0 := by
  unfold timeScore
  dsimp only
  simp only [TIME_BUFFER_HOURS]
  unfold timeDist at h
  split_ifs at h with h1 h2
  · rw [if_neg (by intro hc; linarith [hc.1]), if_neg (by intro hc; linarith [hc.1])]
  · rw [if_neg (by intro hc; linarith [hc.2]), if_neg (by intro hc; linarith [hc.2])]
  · linarith

/-! ### Claims -/

/-- C4: for every alert and change record, the scoring function returns
four factor scores (`asset`, `time`, `type`, `kb`) each lying in `[0, 1]`,
and a weighted total equal to
`0.40·asset + 0.30·time + 0.20·type + 0.10·kb`, which therefore also lies
in `[0, 1]`. -/
theorem C4_score_bounds (kbA : PyStr → Bool) (alert : Alert) (change : Change) :
    (0 ≤ (scoreFactors kbA alert change).asset ∧ (scoreFactors kbA alert change).asset ≤ 1) ∧
    (0 ≤ (scoreFactors kbA alert change).time ∧ (scoreFactors kbA alert change).time ≤ 1) ∧
    (0 ≤ (scoreFactors kbA alert change).type ∧ (scoreFactors kbA alert change).type ≤ 1) ∧
    (0 ≤ (scoreFactors kbA alert change).kb ∧ (scoreFactors kbA alert change).kb ≤ 1) ∧
    scoreTotal kbA alert change =
      (40 / 100) * (scoreFactors kbA alert change).asset +
      (30 / 100) * (scoreFactors kbA alert change).time +
      (20 / 100) * (scoreFactors kbA alert change).type +
      (10 / 100) * (scoreFactors kbA alert change).kb ∧
    0 ≤ scoreTotal kbA alert change ∧ scoreTotal kbA alert change ≤ 1 := by
  have ha : (0 ≤ (scoreFactors kbA alert change).asset ∧
      (scoreFactors kbA alert change).asset ≤ 1) :=
    assetSimilarity_mem alert.asset_name_normalized change.asset_name_normalized
  have ht : (0 ≤ (scoreFactors kbA alert change).time ∧
      (scoreFactors kbA alert change).time ≤ 1) :=
    timeScore_mem alert.detected_at change.scheduled_start change.scheduled_end
  have hy : (0 ≤ (scoreFactors kbA alert change).type ∧
      (scoreFactors kbA alert change).type ≤ 1) :=
    typeMatch_mem alert.change_category change.change_type
  have hk : (0 ≤ (scoreFactors kbA alert change).kb ∧
      (scoreFactors kbA alert change).kb ≤ 1) :=
    kbMatch_mem alert.change_detail change.kb_articles kbA
  have hform : scoreTotal kbA alert change =
      (40 / 100) * (scoreFactors kbA alert change).asset +
      (30 / 100) * (scoreFactors kbA alert change).time +
      (20 / 100) * (scoreFactors kbA alert change).type +
      (10 / 100) * (scoreFactors kbA alert change).kb := by
    unfold scoreTotal
    ring
  refine ⟨ha, ht, hy, hk, hform, ?_, ?_⟩
  · rw [hform]
    rcases ha with ⟨ha0, _⟩
    rcases ht with ⟨ht0, _⟩
    rcases hy with ⟨hy0, _⟩
    rcases hk with ⟨hk0, _⟩
    linarith
  · rw [hform]
    rcases ha with ⟨_, ha1⟩
    rcases ht with ⟨_, ht1⟩
    rcases hy with ⟨_, hy1⟩
    rcases hk with ⟨_, hk1⟩
    linarith

/-- C5: the time factor is 1.0 whenever the detection time falls within
`[scheduled_start, scheduled_end]` (the end defaulting to start + 24
hours when absent); inside the ±`TIME_BUFFER_HOURS` zone around that
window it equals `max(0, 1 − (hours_outside / BUFFER) · 0.5)` with
`hours_outside` measured to the nearer window edge; and it equals 0.0
outside the buffer zone or when no parsable `scheduled_start` exists. -/
theorem C5_time_factor_formula (d s : ℚ) (eo : Option ℚ) :
    (s ≤ d ∧ d ≤ eo.getD (s + 24) → timeScore (some d) (some s) eo = 1) ∧
    ((s - TIME_BUFFER_HOURS ≤ d ∧ d ≤ eo.getD (s + 24) + TIME_BUFFER_HOURS) ∧
        ¬(s ≤ d ∧ d ≤ eo.getD (s + 24)) →
      timeScore (some d) (some s) eo =
        max 0 (1 - ((if d < s then s - d else d - eo.getD (s + 24)) /
          TIME_BUFFER_HOURS) * (1 / 2))) ∧
    (¬(s - TIME_BUFFER_HOURS ≤ d ∧ d ≤ eo.getD (s + 24) + TIME_BUFFER_HOURS) →
      timeScore (some d) (some s) eo = 0) ∧
    (∀ (dt e2 : Option ℚ), timeScore dt none e2 = 0) := by
  refine ⟨?_, ?_, ?_, ?_⟩
  · intro h
    unfold timeScore
    dsimp only
    rw [if_pos h]
  · intro h
    unfold timeScore
    dsimp only
    rw [if_neg h.2, if_pos h.1]
  · intro h
    unfold timeScore
    dsimp only
    have hcore : ¬(s ≤ d ∧ d ≤ eo.getD (s + 24)) := by
      intro hc
      exact h ⟨by simp only [TIME_BUFFER_HOURS]; linarith [hc.1],
        by simp only [TIME_BUFFER_HOURS]; linarith [hc.2]⟩
    rw [if_neg hcore, if_neg h]
  · intro dt e2
    cases dt <;> rfl

/-- C5 witness: the three branches and the missing-start case at concrete
inputs. -/
theorem C5_time_factor_witness :
    timeScore (some 100) (some 90) (some 110) = 1 ∧
    timeScore (some 80) (some 90) (some 110) =
      max 0 (1 - ((if (80 : ℚ) < 90 then (90 : ℚ) - 80
          else 80 - Option.getD (some 110) (90 + 24)) / TIME_BUFFER_HOURS) * (1 / 2)) ∧
    timeScore (some 200) (some 90) (some 110) = 0 ∧
    timeScore none none none = 0 :=
  ⟨(C5_time_factor_formula 100 90 (some 110)).1 (by norm_num [Option.getD]),
   (C5_time_factor_formula 80 90 (some 110)).2.1
     ⟨⟨by norm_num [Option.getD, TIME_BUFFER_HOURS],
       by norm_num [Option.getD, TIME_BUFFER_HOURS]⟩,
      by norm_num [Option.getD]⟩,
   (C5_time_factor_formula 200 90 (some 110)).2.2.1
     (by norm_num [Option.getD, TIME_BUFFER_HOURS]),
   (C5_time_factor_formula 0 0 none).2.2.2 none none⟩

/-- C6 counterexample: a detection time whose distance outside the window
is exactly `TIME_BUFFER_HOURS` (detection at 0, window `[24, 48]`) scores
`1/2`, not 0 — the claim "reaching 0 at or beyond the buffer boundary"
fails at the boundary. -/
theorem C6_counterexample :
    timeScore (some 0) (some 24) (some 48) = 1 / 2 ∧
    timeDist 24 48 0 = TIME_BUFFER_HOURS ∧ ¬ ((1 : ℚ) / 2 = 0) := by
  refine ⟨?_, by norm_num [timeDist, TIME_BUFFER_HOURS], by norm_num⟩
  unfold timeScore
  dsimp only [Option.getD]
  rw [if_neg (by norm_num), if_pos (by norm_num [TIME_BUFFER_HOURS])]
  rw [if_pos (by norm_num)]
  rw [max_eq_right (by norm_num [TIME_BUFFER_HOURS])]
  norm_num [TIME_BUFFER_HOURS]

/-- C6 (amended): for a well-formed window (`scheduled_start ≤ end`, the
end defaulting to start + 24h), the time factor is 1.0 strictly inside
`[start, end]`, monotonically non-increasing in the distance outside the
window, equal to `1/2` when that distance is exactly `TIME_BUFFER_HOURS`,
and 0 only strictly beyond the buffer boundary. -/
theorem C6_amended_time_monotone (s d : ℚ) (eo : Option ℚ)
    (hwf : s ≤ eo.getD (s + 24)) :
    (s < d ∧ d < eo.getD (s + 24) → timeScore (some d) (some s) eo = 1) ∧
    (∀ d2, timeDist s (eo.getD (s + 24)) d ≤ timeDist s (eo.getD (s + 24)) d2 →
      timeScore (some d2) (some s) eo ≤ timeScore (some d) (some s) eo) ∧
    (TIME_BUFFER_HOURS < timeDist s (eo.getD (s + 24)) d →
      timeScore (some d) (some s) eo = 0) ∧
    (timeDist s (eo.getD (s + 24)) d = TIME_BUFFER_HOURS →
      timeScore (some d) (some s) eo = 1 / 2) := by
  simp only [TIME_BUFFER_HOURS]
  refine ⟨?_, ?_, ?_, ?_⟩
  · intro h
    apply timeScore_of_dist_zero d s eo hwf
    unfold timeDist
    rw [if_neg (by linarith [h.1]), if_neg (by linarith [h.2])]
  · intro d2 hle
    by_cases h2 : 24 < timeDist s (eo.getD (s + 24)) d2
    · rw [timeScore_of_dist_beyond d2 s eo hwf h2]
      exact (timeScore_mem (some d) (some s) eo).1
    · push_neg at h2
      have h1 : timeDist s (eo.getD (s + 24)) d ≤ 24 := le_trans hle h2
      by_cases h0 : timeDist s (eo.getD (s + 24)) d = 0
      · rw [timeScore_of_dist_zero d s eo hwf h0]
        exact (timeScore_mem (some d2) (some s) eo).2
      · have h0x : 0 < timeDist s (eo.getD (s + 24)) d :=
          lt_of_le_of_ne (timeDist_nonneg _ _ _) (Ne.symm h0)
        have h02 : 0 < timeDist s (eo.getD (s + 24)) d2 := lt_of_lt_of_le h0x hle
        rw [timeScore_of_dist_buffer d s eo hwf h0x h1,
          timeScore_of_dist_buffer d2 s eo hwf h02 h2]
        linarith
  · intro h
    exact timeScore_of_dist_beyond d s eo hwf h
  · intro h
    rw [timeScore_of_dist_buffer d s eo hwf (by rw [h]; norm_num) (by rw [h])]
    rw [h]
    norm_num

/-- C6 witness: the amended statement at window `[24, 48]`: score 1 at 30
(inside), monotone between distances 4 (at 20) and 14 (at 10), 0 at 100
(distance 52), and 1/2 at 0 (distance exactly 24). -/
theorem C6_amended_witness :
    timeScore (some 30) (some 24) (some 48) = 1 ∧
    timeScore (some 10) (some 24) (some 48) ≤ timeScore (some 20) (some 24) (some 48) ∧
    timeScore (some 100) (some 24) (some 48) = 0 ∧
    timeScore (some 0) (some 24) (some 48) = 1 / 2 :=
  ⟨(C6_amended_time_monotone 24 30 (some 48) (by norm_num [Option.getD])).1
     (by norm_num [Option.getD]),
   (C6_amended_time_monotone 24 20 (some 48) (by norm_num [Option.getD])).2.1 10
     (by norm_num [timeDist, Option.getD]),
   (C6_amended_time_monotone 24 100 (some 48) (by norm_num [Option.getD])).2.2.1
     (by norm_num [timeDist, Option.getD, TIME_BUFFER_HOURS]),
   (C6_amended_time_monotone 24 0 (some 48) (by norm_num [Option.getD])).2.2.2
     (by norm_num [timeDist, Option.getD, TIME_BUFFER_HOURS])⟩

/-- C7 counterexample: the asset-similarity factor is not symmetric.  For
the normalized names `"abxcd"` and `"cdyabzcd"` (neither empty, not
equal, neither a substring of the other, no shared token), the factor is
the `SequenceMatcher` ratio, and that ratio is order-dependent: 8/13 one
way, 4/13 the other. -/
theorem C7_counterexample :
    assetSimilarity (pstr "abxcd") (pstr "cdyabzcd") = 8 / 13 ∧
    assetSimilarity (pstr "cdyabzcd") (pstr "abxcd") = 4 / 13 ∧
    ¬ ((8 : ℚ) / 13 = 4 / 13) := by
  refine ⟨?_, ?_, by norm_num⟩
  · have hM : seqMatcherTotal (pstr "abxcd") (pstr "cdyabzcd") = 4 := by decide
    have hI : (tokensOf (pstr "abxcd") ∩ tokensOf (pstr "cdyabzcd")).card = 0 := by decide
    have hU : (tokensOf (pstr "abxcd") ∪ tokensOf (pstr "cdyabzcd")).card = 2 := by decide
    have hl1 : (pstr "abxcd").length = 5 := by decide
    have hl2 : (pstr "cdyabzcd").length = 8 := by decide
    unfold assetSimilarity
    rw [if_neg (by decide), if_neg (by decide), if_neg (by decide)]
    dsimp only
    rw [if_pos (by decide)]
    unfold seqRatio
    rw [if_neg (by decide), hM, hI, hU, hl1, hl2]
    rw [max_eq_left (by norm_num)]
    norm_num
  · have hM : seqMatcherTotal (pstr "cdyabzcd") (pstr "abxcd") = 2 := by decide
    have hI : (tokensOf (pstr "cdyabzcd") ∩ tokensOf (pstr "abxcd")).card = 0 := by decide
    have hU : (tokensOf (pstr "cdyabzcd") ∪ tokensOf (pstr "abxcd")).card = 2 := by decide
    have hl1 : (pstr "cdyabzcd").length = 8 := by decide
    have hl2 : (pstr "abxcd").length = 5 := by decide
    unfold assetSimilarity
    rw [if_neg (by decide), if_neg (by decide), if_neg (by decide)]
    dsimp only
    rw [if_pos (by decide)]
    unfold seqRatio
    rw [if_neg (by decide), hM, hI, hU, hl1, hl2]
    rw [max_eq_left (by norm_num)]
    norm_num

/-- C7 (amended): the asset-similarity factor is symmetric whenever the
exact-equality or containment branch applies (in particular for equal,
empty, or mutually containing names); full symmetry fails in the fuzzy
branch because the `SequenceMatcher` ratio is order-dependent. -/
theorem C7_amended_symmetry (a b : PyStr)
    (h : a = b ∨ a <:+: b ∨ b <:+: a) :
    assetSimilarity a b = assetSimilarity b a := by
  unfold assetSimilarity
  by_cases he : a = [] ∨ b = []
  · rw [if_pos he, if_pos (Or.symm he)]
  · rw [if_neg he, if_neg (show ¬(b = [] ∨ a = []) from fun hc => he (Or.symm hc))]
    by_cases heq : a = b
    · rw [if_pos heq, if_pos heq.symm]
    · rw [if_neg heq, if_neg (show ¬(b = a) from fun hc => heq hc.symm)]
      rcases h with h | h | h
      · exact absurd h heq
      · rw [if_pos (show a <:+: b ∨ b <:+: a from Or.inl h),
          if_pos (show b <:+: a ∨ a <:+: b from Or.inr h)]
      · rw [if_pos (show a <:+: b ∨ b <:+: a from Or.inr h),
          if_pos (show b <:+: a ∨ a <:+: b from Or.inl h)]

/-- C7 witness: symmetry at a concrete containment pair. -/
theorem C7_amended_witness :
    assetSimilarity (pstr "ab") (pstr "xaby") = assetSimilarity (pstr "xaby") (pstr "ab") :=
  C7_amended_symmetry (pstr "ab") (pstr "xaby") (Or.inr (Or.inl (by decide)))

/-- C8: `_extract_chg_numbers` deduplicates the raw matches *before*
uppercasing (`[m.upper() for m in set(matches)]`), so two case-variant
spellings of the same ticket identifier yield a duplicated output list —
whatever iteration order Python's set uses, both entries uppercase to the
same identifier.  This contradicts the claimed deduplicated,
order-preserving uppercase contract (which the sibling implementation
`extract_chg_numbers_from_comment` in `connectors/servicenow_pseg.py`
and the test `test_extract_duplicates_removed` do satisfy). -/
theorem C8_code_bug_eval :
    extractChgNumbers (pstr "chg0000338290 CHG0000338290") =
      [pstr "CHG0000338290", pstr "CHG0000338290"] ∧
    ¬ (extractChgNumbers (pstr "chg0000338290 CHG0000338290")).Nodup ∧
    extractChgNumbers [] = [] := by
  refine ⟨by decide, by decide, rfl⟩

/-- The validation statuses of the validation rows created by a write
sequence, in order. -/
def writeStatuses (ops : List WriteOp) : List PyStr :=
  ops.filterMap (fun op => match op with
    | .createValidation v => some v.validation_status
    | _ => none)

/-- C3: for every alert and candidate-change set, `correlate` returns no
match when no candidate's weighted score reaches
`MINIMUM_MATCH_THRESHOLD`; a returned match is marked auto-validated if
and only if its score is at or above `AUTO_VALIDATE_THRESHOLD`; a
candidate scoring exactly 0.95 is auto-validated and one scoring 0.94 is
not, the latter yielding a pending-review validation record when no
higher-scoring candidate exists. -/
theorem C3_thresholds :
    (∀ (db : DBFuns) (now : ℚ) (alert : Alert),
      (∀ c ∈ getCandidateChanges db now alert,
        scoreTotal db.isKbApproved alert c < MINIMUM_MATCH_THRESHOLD) →
      correlate db now alert = none) ∧
    (∀ (db : DBFuns) (now : ℚ) (alert : Alert) (r : CorrelationResult),
      correlate db now alert = some r →
      (r.is_auto_validated = true ↔ AUTO_VALIDATE_THRESHOLD ≤ r.score)) ∧
    ((correlate dbA 0 alertA).map CorrelationResult.score = some (19 / 20) ∧
      (correlate dbA 0 alertA).map CorrelationResult.is_auto_validated = some true) ∧
    ((correlate dbB 0 alertB).map CorrelationResult.score = some (47 / 50) ∧
      (correlate dbB 0 alertB).map CorrelationResult.is_auto_validated = some false ∧
      writeStatuses (correlateAndValidate dbB 0 2 alertB).2 = [pstr "pending_review"]) := by
  refine ⟨?_, ?_, ?_, ?_⟩
  · intro db now alert hall
    rcases correlate_spec db now alert with ⟨hnone, _⟩ | ⟨pre, c, post, hproc, hsome, hmin, _, _⟩
    · exact hnone
    · exfalso
      have hc : c ∈ getCandidateChanges db now alert := by
        rw [hproc]; simp
      linarith [hall c hc]
  · intro db now alert r hr
    rcases correlate_spec db now alert with ⟨hnone, _⟩ | ⟨pre, c, post, hproc, hsome, hmin, _, _⟩
    · rw [hnone] at hr; cases hr
    · rw [hsome] at hr
      injection hr with hr
      subst hr
      unfold resultOf
      dsimp only
      simp only [decide_eq_true_eq]
  · rw [ev_correlateA]
    exact ⟨congrArg some ev_resultA_score, congrArg some ev_resultA_auto⟩
  · refine ⟨?_, ?_, ?_⟩
    · rw [ev_correlateB]
      exact congrArg some ev_resultB_score
    · rw [ev_correlateB]
      exact congrArg some ev_resultB_auto
    · unfold correlateAndValidate
      rw [ev_correlateB]
      dsimp only
      rw [ev_resultB_auto]
      rfl

/-- An empty candidate store, for the C3 witness. -/
def dbEmpty : DBFuns where
  getChangesInWindow := fun _ _ _ => []
  isKbApproved := kbFalse

/-- C3 witness: the no-candidate case returns no match, and the
auto-validation flag of a returned match agrees with the threshold
comparison at a concrete match. -/
theorem C3_thresholds_witness :
    correlate dbEmpty 0 alertA = none ∧
    ((resultOf kbFalse alertA changeA).is_auto_validated = true ↔
      AUTO_VALIDATE_THRESHOLD ≤ (resultOf kbFalse alertA changeA).score) :=
  ⟨C3_thresholds.1 dbEmpty 0 alertA
     (by intro c hc; simp [getCandidateChanges, dbEmpty] at hc),
   C3_thresholds.2.1 dbA 0 alertA _ ev_correlateA⟩

/-- C10 (implicit): `correlate` is a deterministic function of the alert
and the ordered candidate list (it is a pure function of its arguments),
and when it returns a match, that match is built from the earliest
candidate attaining the maximal qualifying score: every earlier candidate
scores strictly lower, every candidate scores at most it, and its score
reaches the minimum threshold — so a later candidate replaces the current
best only when its score is strictly greater. -/
theorem C10_earliest_win (db : DBFuns) (now : ℚ) (alert : Alert)
    (r : CorrelationResult) (h : correlate db now alert = some r) :
    ∃ pre c post, getCandidateChanges db now alert = pre ++ c :: post ∧
      r = resultOf db.isKbApproved alert c ∧
      MINIMUM_MATCH_THRESHOLD ≤ scoreTotal db.isKbApproved alert c ∧
      (∀ x ∈ pre, scoreTotal db.isKbApproved alert x <
        scoreTotal db.isKbApproved alert c) ∧
      (∀ x ∈ getCandidateChanges db now alert,
        scoreTotal db.isKbApproved alert x ≤ scoreTotal db.isKbApproved alert c) := by
  rcases correlate_spec db now alert with ⟨hnone, _⟩ | ⟨pre, c, post, hproc, hsome, hmin, hpre, hall⟩
  · rw [hnone] at h; cases h
  · rw [hsome] at h
    injection h with h
    exact ⟨pre, c, post, hproc, h.symm, hmin, hpre, hall⟩

/-- C10 witness: the characterization at a concrete single-candidate
run. -/
theorem C10_earliest_win_witness :
    ∃ pre c post, getCandidateChanges dbA 0 alertA = pre ++ c :: post ∧
      resultOf kbFalse alertA changeA = resultOf dbA.isKbApproved alertA c ∧
      MINIMUM_MATCH_THRESHOLD ≤ scoreTotal dbA.isKbApproved alertA c ∧
      (∀ x ∈ pre, scoreTotal dbA.isKbApproved alertA x <
        scoreTotal dbA.isKbApproved alertA c) ∧
      (∀ x ∈ getCandidateChanges dbA 0 alertA,
        scoreTotal dbA.isKbApproved alertA x ≤ scoreTotal dbA.isKbApproved alertA c) :=
  C10_earliest_win dbA 0 alertA (resultOf kbFalse alertA changeA) ev_correlateA

/-- C1 counterexample: an exception with no extractable identifiers whose
derived alert has a candidate scoring 0.95 (asset, window and type all
matching).  The generic scored path would auto-validate it
(`correlate` returns an auto-validated match with score 0.95), yet
`process_exception` never invokes the Correlation Engine: it falls
through to the no-match fallback with method `'none'`, not validated,
confidence 0.0 — even with a ServiceNow connector configured. -/
theorem C1_counterexample :
    extractChgNumbers excNoIds.comment = [] ∧
    csvAlertOf excNoIds = alertA ∧
    (correlate dbA 0 (csvAlertOf excNoIds)).map CorrelationResult.is_auto_validated =
      some true ∧
    (correlate dbA 0 (csvAlertOf excNoIds)).map CorrelationResult.score =
      some (19 / 20) ∧
    (processException dbA.isKbApproved (some (fun _ => [])) excNoIds).is_validated =
      false ∧
    (processException dbA.isKbApproved (some (fun _ => [])) excNoIds).confidence = 0 ∧
    (processException dbA.isKbApproved (some (fun _ => [])) excNoIds).correlation_method =
      some (pstr "none") := by
  have hc : csvAlertOf excNoIds = alertA := by decide
  refine ⟨by decide, hc, ?_, ?_, by decide, ?_, by decide⟩
  · rw [hc, ev_correlateA]
    exact congrArg some ev_resultA_auto
  · rw [hc, ev_correlateA]
    exact congrArg some ev_resultA_score
  · rfl

/-- C1 (amended): `process_exception` does not invoke the Correlation
Engine's generic scored correlation at all — its step 3 is an
unimplemented comment.  Whenever the direct-identifier path and the
approved-patch path both fail, the alert falls directly to the no-match
fallback: method `'none'`, not validated, confidence 0.0, regardless of
what `correlate` would return. -/
theorem C1_amended_no_generic_path (kbA : PyStr → Bool)
    (snow : Option (List PyStr → List Change)) (exc : IDExceptionRec)
    (h1 : ∀ lookup, snow = some lookup →
      correlateWithDirectLookup lookup (extractChgNumbers exc.comment) = none)
    (h2 : exc.exception_type = pstr "patches_installed" →
      (exc.kb_numbers ++ (if exc.patch_id ≠ [] then
        ((kbSearchPlain exc.patch_id).map strUpper).toList else [])).find? kbA = none) :
    (processException kbA snow exc).correlation_method = some (pstr "none") ∧
    (processException kbA snow exc).is_validated = false ∧
    (processException kbA snow exc).confidence = 0 := by
  unfold processException
  dsimp only
  cases hs : snow with
  | none =>
    by_cases hty : exc.exception_type = pstr "patches_installed"
    · rw [if_pos hty, h2 hty]
      exact ⟨rfl, rfl, rfl⟩
    · rw [if_neg hty]
      exact ⟨rfl, rfl, rfl⟩
  | some lookup =>
    dsimp only
    rw [h1 lookup hs]
    by_cases hchg : extractChgNumbers exc.comment ≠ []
    · rw [if_pos hchg]
      by_cases hty : exc.exception_type = pstr "patches_installed"
      · rw [if_pos hty, h2 hty]
        exact ⟨rfl, rfl, rfl⟩
      · rw [if_neg hty]
        exact ⟨rfl, rfl, rfl⟩
    · rw [if_neg hchg]
      by_cases hty : exc.exception_type = pstr "patches_installed"
      · rw [if_pos hty, h2 hty]
        exact ⟨rfl, rfl, rfl⟩
      · rw [if_neg hty]
        exact ⟨rfl, rfl, rfl⟩

/-- C1 witness: the amended no-generic-path behaviour at the concrete
exception of the counterexample. -/
theorem C1_amended_witness :
    (processException kbFalse (some (fun _ => [])) excNoIds).correlation_method =
      some (pstr "none") ∧
    (processException kbFalse (some (fun _ => [])) excNoIds).is_validated = false ∧
    (processException kbFalse (some (fun _ => [])) excNoIds).confidence = 0 :=
  C1_amended_no_generic_path kbFalse (some (fun _ => [])) excNoIds
    (fun lookup _ => by
      unfold correlateWithDirectLookup
      rw [if_pos (by decide)])
    (fun hty => absurd hty (by decide))

/-- C2 counterexample: scenario 1 — a comment `"Activity: CHG0000338290"`
and a ServiceNow lookup returning that change as approved with state
`"Closed Successful"`.  `process_exception` auto-validates with
confidence 1.0, but the emitted rule string is `'direct_chg_lookup'`,
not the `'direct_ticket_lookup'` the claim names. -/
theorem C2_counterexample :
    extractChgNumbers excDirect.comment = [pstr "CHG0000338290"] ∧
    (lookupDirect (extractChgNumbers excDirect.comment)).filter approvedClosed =
      [chgDirect] ∧
    (processException kbFalse (some lookupDirect) excDirect).is_validated = true ∧
    (processException kbFalse (some lookupDirect) excDirect).confidence = 1 ∧
    (processException kbFalse (some lookupDirect) excDirect).correlation_method =
      some (pstr "direct_chg_lookup") ∧
    ¬ ((processException kbFalse (some lookupDirect) excDirect).correlation_method =
      some (pstr "direct_ticket_lookup")) := by
  refine ⟨by decide, by decide, by decide, rfl, by decide, by decide⟩

/-- C2 (amended): whenever ticket identifiers are extracted from the
comment and the direct (exact) lookup returns at least one change with
`approval_status == 'approved'` and a closed execution state,
`process_exception` emits an auto-validated result with confidence 1.0,
rule `'direct_chg_lookup'`, and the extracted identifiers as matched
tickets; no later waterfall step is attempted — the result does not
depend on the WSUS approved list at all. -/
theorem C2_amended_direct_lookup (kbA : PyStr → Bool)
    (lookup : List PyStr → List Change) (exc : IDExceptionRec)
    (hchg : extractChgNumbers exc.comment ≠ [])
    (happ : (lookup (extractChgNumbers exc.comment)).filter approvedClosed ≠ []) :
    (processException kbA (some lookup) exc).is_validated = true ∧
    (processException kbA (some lookup) exc).confidence = 1 ∧
    (processException kbA (some lookup) exc).correlation_method =
      some (pstr "direct_chg_lookup") ∧
    (processException kbA (some lookup) exc).matched_tickets =
      extractChgNumbers exc.comment ∧
    (∀ kbA2, processException kbA (some lookup) exc =
      processException kbA2 (some lookup) exc) := by
  have hlk : correlateWithDirectLookup lookup (extractChgNumbers exc.comment) =
      some ((lookup (extractChgNumbers exc.comment)).filter approvedClosed) := by
    unfold correlateWithDirectLookup
    rw [if_neg hchg, if_neg happ]
  constructor
  · unfold processException
    dsimp only
    rw [hlk, if_pos hchg]
  constructor
  · unfold processException
    dsimp only
    rw [hlk, if_pos hchg]
  constructor
  · unfold processException
    dsimp only
    rw [hlk, if_pos hchg]
  constructor
  · unfold processException
    dsimp only
    rw [hlk, if_pos hchg]
  · intro kbA2
    unfold processException
    dsimp only
    rw [hlk, if_pos hchg]

/-- C2 witness: the amended direct-lookup behaviour at the scenario-1
fixture. -/
theorem C2_amended_witness :
    (processException kbFalse (some lookupDirect) excDirect).is_validated = true ∧
    (processException kbFalse (some lookupDirect) excDirect).confidence = 1 ∧
    (processException kbFalse (some lookupDirect) excDirect).correlation_method =
      some (pstr "direct_chg_lookup") ∧
    (processException kbFalse (some lookupDirect) excDirect).matched_tickets =
      extractChgNumbers excDirect.comment ∧
    (∀ kbA2, processException kbFalse (some lookupDirect) excDirect =
      processException kbA2 (some lookupDirect) excDirect) :=
  C2_amended_direct_lookup kbFalse lookupDirect excDirect (by decide) (by decide)

/-- `statusOf` reads `'pending'` from a state whose only status row is
the initial one, whatever validations exist. -/
theorem statusOf_pending (vs : List ValidationRec) (aid : Nat) :
    statusOf ⟨vs, [(aid, pstr "pending")]⟩ aid = pstr "pending" := by
  unfold statusOf
  simp

/-- `statusOf` reads `'validated'` once the status update has been
applied. -/
theorem statusOf_validated (vs : List ValidationRec) (aid : Nat) :
    statusOf ⟨vs, [(aid, pstr "pending"), (aid, pstr "validated")]⟩ aid =
      pstr "validated" := by
  unfold statusOf
  simp

/-- The write sequence emitted by `correlate_and_validate` is either one
validation insert, or one validation insert followed by the status
update, and the inserted row carries the processed alert's id. -/
theorem candv_ops_shape (db : DBFuns) (now : ℚ) (alertId : Nat) (alert : Alert) :
    ∃ v : ValidationRec,
      ((correlateAndValidate db now alertId alert).2 = [WriteOp.createValidation v] ∨
       (correlateAndValidate db now alertId alert).2 =
         [WriteOp.createValidation v,
          WriteOp.updateAlertStatus alertId (pstr "validated") (pstr "SYSTEM")]) ∧
      v.alert_id = alertId := by
  unfold correlateAndValidate
  rcases hc : correlate db now alert with _ | r
  · exact ⟨_, Or.inl rfl, rfl⟩
  · dsimp only
    by_cases hauto : r.is_auto_validated = true
    · simp only [if_pos hauto]
      exact ⟨_, Or.inr rfl, rfl⟩
    · simp only [if_neg hauto]
      exact ⟨_, Or.inl rfl, rfl⟩

/-- C9 counterexample: the write path is two separately committed store
calls (`create_validation`, then `update_alert_status`, each on its own
connection in `db.py`), not one transaction.  For the auto-validated run
on `alertA`, the state reached after only the first commit — a reachable
partial-failure state — holds the Validation row while the alert status
still reads `'pending'`: the two writes did not succeed or fail
together. -/
theorem C9_counterexample :
    (correlateAndValidate dbA 0 7 alertA).2.length = 2 ∧
    (applyOps ⟨[], [(7, pstr "pending")]⟩
        ((correlateAndValidate dbA 0 7 alertA).2.take 1)).validations.length = 1 ∧
    statusOf (applyOps ⟨[], [(7, pstr "pending")]⟩
        ((correlateAndValidate dbA 0 7 alertA).2.take 1)) 7 = pstr "pending" ∧
    statusOf (applyOps ⟨[], [(7, pstr "pending")]⟩
        (correlateAndValidate dbA 0 7 alertA).2) 7 = pstr "validated" := by
  have hv : (correlateAndValidate dbA 0 7 alertA).2 =
      [WriteOp.createValidation
        { alert_id := 7
          change_id := some (resultOf kbFalse alertA changeA).change_id
          correlation_score := (resultOf kbFalse alertA changeA).score
          validation_status := pstr "auto_validated"
          validated_by := some (pstr "SYSTEM")
          validated_at := some 0
          auto_validation_rule := (resultOf kbFalse alertA changeA).validation_rule
          notes := none },
       WriteOp.updateAlertStatus 7 (pstr "validated") (pstr "SYSTEM")] := by
    unfold correlateAndValidate
    rw [ev_correlateA]
    dsimp only
    simp only [ev_resultA_auto, if_true]
  rw [hv]
  exact ⟨rfl, rfl, statusOf_pending _ 7, statusOf_validated _ 7⟩

/-- C9 (amended): the two writes are separate transactions, so atomicity
as claimed fails (see the counterexample); but because the engine creates
the Validation row *before* updating the alert status, the claimed bad
state is one-sided: in every prefix-reachable state of the write
sequence, an alert whose status reads `'validated'` has a backing
Validation row.  The converse partial state (a Validation row with the
status still `'pending'`) is reachable. -/
theorem C9_amended_write_order (db : DBFuns) (now : ℚ) (alertId : Nat)
    (alert : Alert) (n : Nat)
    (h : statusOf (applyOps ⟨[], [(alertId, pstr "pending")]⟩
      ((correlateAndValidate db now alertId alert).2.take n)) alertId =
      pstr "validated") :
    ∃ v ∈ (applyOps ⟨[], [(alertId, pstr "pending")]⟩
        ((correlateAndValidate db now alertId alert).2.take n)).validations,
      v.alert_id = alertId := by
  have hpv : ¬ (pstr "pending" = pstr "validated") := by decide
  obtain ⟨v, hshape, hvid⟩ := candv_ops_shape db now alertId alert
  rcases hshape with hops | hops <;> rw [hops] at h ⊢
  · match n with
    | 0 =>
      rw [List.take_zero] at h
      exact absurd ((statusOf_pending [] alertId).symm.trans h).symm (fun hx => hpv hx.symm)
    | n + 1 =>
      simp only [List.take_succ_cons, List.take_nil] at h
      exact absurd ((statusOf_pending ([] ++ [v]) alertId).symm.trans h).symm
        (fun hx => hpv hx.symm)
  · match n with
    | 0 =>
      rw [List.take_zero] at h
      exact absurd ((statusOf_pending [] alertId).symm.trans h).symm (fun hx => hpv hx.symm)
    | 1 =>
      simp only [List.take_succ_cons, List.take_zero] at h
      exact absurd ((statusOf_pending ([] ++ [v]) alertId).symm.trans h).symm
        (fun hx => hpv hx.symm)
    | n + 2 =>
      simp only [List.take_succ_cons, List.take_nil]
      exact ⟨v, by simp [applyOps, applyOp], hvid⟩

/-- C9 witness: the order guarantee at the concrete auto-validated run,
with the full (length-2) prefix applied. -/
theorem C9_amended_witness :
    ∃ v ∈ (applyOps ⟨[], [(7, pstr "pending")]⟩
        ((correlateAndValidate dbA 0 7 alertA).2.take 2)).validations,
      v.alert_id = 7 := by
  apply C9_amended_write_order dbA 0 7 alertA 2
  have hv : (correlateAndValidate dbA 0 7 alertA).2 =
      [WriteOp.createValidation
        { alert_id := 7
          change_id := some (resultOf kbFalse alertA changeA).change_id
          correlation_score := (resultOf kbFalse alertA changeA).score
          validation_status := pstr "auto_validated"
          validated_by := some (pstr "SYSTEM")
          validated_at := some 0
          auto_validation_rule := (resultOf kbFalse alertA changeA).validation_rule
          notes := none },
       WriteOp.updateAlertStatus 7 (pstr "validated") (pstr "SYSTEM")] := by
    unfold correlateAndValidate
    rw [ev_correlateA]
    dsimp only
    simp only [ev_resultA_auto, if_true]
  rw [hv]
  exact statusOf_validated _ 7

end OTValidator